import Mathlib

-- Mathlib marks the Rat arithmetic operations irreducible for elaborator
-- performance.  The embedding below is executable and its witnesses are
-- checked by evaluation, so this file restores their default
-- reducibility locally; this has no effect on soundness (the kernel
-- never consults reducibility attributes).
set_option allowUnsafeReducibility true
attribute [local semireducible] Rat.mul Rat.add Rat.div Rat.sub Rat.neg Rat.inv Rat.ofScientific

set_option maxRecDepth 4000

/-!
Verification development for the PadawanZero address-generation subsystem.

This file gives a shallow embedding, in Lean 4, of the Go code of the
repository: the nonce registry (internal/state/nonce.go), the geolocation
quantization and commitment helpers, and the address orchestrator
(GenerateAddress, GenerateAddressesBatch, the LRU response cache and the
binary codec of AddressInfo).  External collaborators (the kyber group,
the blake3 hash, the post-quantum KEM, the libzk13 prover and the
randomness source) are modelled as explicit oracle parameters, so every
definition stays executable.  Go float64 coordinates are modelled as
rational numbers; the transcendental cosine used by the quantizer is an
oracle parameter as well.  Machine integers that appear (timestamps,
proof bit-lengths) are modelled as Int; no arithmetic here approaches
64-bit overflow on the inputs considered.
-/

namespace PadawanZero

/-- Go byte strings are modelled as lists of byte values. -/
abbrev Bytes := List Nat

/-- The bytes of an ASCII Lean string, modelling a Go string literal. -/
def strBytes (s : String) : Bytes := s.data.map Char.toNat

/-- Outcome of a Go function that can return a value, return an error, or
crash the process with a runtime panic (for example a nil-pointer
dereference). -/
inductive GoOutcome (α : Type) where
  | ok : α → GoOutcome α
  | err : String → GoOutcome α
  | crash : GoOutcome α
deriving DecidableEq, Repr

/-- Whether a GoOutcome is a successful return. -/
def GoOutcome.isOk {α : Type} : GoOutcome α → Bool
  | .ok _ => true
  | _ => false

/-- Whether a GoOutcome is a runtime crash. -/
def GoOutcome.isCrash {α : Type} : GoOutcome α → Bool
  | .crash => true
  | _ => false

/-- The successful value of a GoOutcome, when there is one. -/
def GoOutcome.toOk {α : Type} : GoOutcome α → Option α
  | .ok a => some a
  | _ => none

/-- math.Round of Go: round to nearest, halves away from zero. -/
def goRound (q : ℚ) : Int :=
  if q < 0 then -((-q + 1/2).floor) else (q + 1/2).floor

/-- Left-pad the decimal digits of n with zeros to width 6; helper for the
fractional part of the %f format. -/
def pad6 (n : Nat) : String :=
  let s := toString n
  String.mk (List.replicate (6 - s.length) '0') ++ s

/-- Go fmt %f formatting of a float64, modelled on rationals: fixed six
digits after the decimal point.  Exact for every input whose decimal
expansion stops within six fractional digits, which covers all concrete
coordinates appearing in this development. -/
def format6 (q : ℚ) : String :=
  let scaled : Int := goRound (q * 1000000)
  let a := scaled.natAbs
  (if scaled < 0 then "-" else "") ++ toString (a / 1000000) ++ "." ++ pad6 (a % 1000000)

/-- The coordinate key fmt.Sprintf of GenerateAddress: the fixed-precision
decimal rendering of latitude and longitude, comma separated. -/
def coordKey (lat lon : ℚ) : String := format6 lat ++ "," ++ format6 lon

/-- json.Marshal of a Go []int value, as produced by
SafeLatitudeLongitude.Bytes. -/
def jsonIntList (l : List Int) : String :=
  "[" ++ String.intercalate "," (l.map toString) ++ "]"

/-! ## Nonce registry (internal/state/nonce.go) -/

/-- nonceLifetime of nonce.go: nonce validity window in seconds. -/
def nonceLifetime : Int := 3600

/-- nonceSize of nonce.go: byte length of a nonce value. -/
def nonceSize : Nat := 32

/-- The Nonce record of nonce.go. -/
structure Nonce where
  address : String
  value : Bytes
  hash : Bytes
  timestamp : Int
deriving DecidableEq, Repr

/-- The nonces map of nonce.go: a Go map from address identity to its
stored nonce, modelled as a partial function. -/
def NonceStore := String → Option Nonce

/-- The empty initial nonces map. -/
def emptyNonceStore : NonceStore := fun _ => none

/-- Go map assignment nonces[address] = nonce: overwrite one key. -/
def updateStore (store : NonceStore) (address : String) (n : Nonce) : NonceStore :=
  fun a => if a = address then some n else store a

/-- The crypto/rand randomness source: whether rand.Read succeeds, and the
byte stream it fills buffers with. -/
structure RandOracle where
  ok : Bool
  byteAt : Nat → Nat

/-- generateNonceHash of nonce.go: the shared blake3 context is reset,
fed the address bytes then the value bytes, and summed; so it computes
the hash of the concatenation address bytes followed by value bytes.
The blake3 function itself is the oracle parameter hb. -/
def generateNonceHash (hb : Bytes → Bytes) (address : String) (value : Bytes) : Bytes :=
  hb (strBytes address ++ value)

/-- The nonce built on the generation path of GenerateOrUpdateNonce: a
buffer of nonceSize bytes filled by the randomness source, its hash
bound to the address, and the current timestamp. -/
def freshNonce (hb : Bytes → Bytes) (r : RandOracle) (now : Int) (address : String) : Nonce :=
  let value := (List.range nonceSize).map r.byteAt
  ⟨address, value, generateNonceHash hb address value, now⟩

/-- GenerateOrUpdateNonce of nonce.go.  If a stored nonce for the address
exists and is not expired at the current time, it is returned and the map
is untouched.  Otherwise 32 fresh random bytes are drawn (nil is returned
on randomness failure, map untouched), hashed together with the address,
and the new nonce overwrites the map entry. -/
def generateOrUpdateNonce (hb : Bytes → Bytes) (r : RandOracle) (now : Int)
    (store : NonceStore) (address : String) : Option Nonce × NonceStore :=
  let fresh : Option Nonce × NonceStore :=
    if r.ok then
      let n := freshNonce hb r now address
      (some n, updateStore store address n)
    else (none, store)
  match store address with
  | some n => if now - n.timestamp ≤ nonceLifetime then (some n, store) else fresh
  | none => fresh

/-- ValidateNonce of nonce.go: true iff a nonce is stored for the address,
the candidate value and hash byte-equal the stored ones, and the stored
nonce is not older than the lifetime. -/
def validateNonce (store : NonceStore) (now : Int) (address : String) (cand : Nonce) : Bool :=
  match store address with
  | some st =>
      cand.value == st.value && cand.hash == st.hash &&
        decide (now - st.timestamp ≤ nonceLifetime)
  | none => false

/-- PruneExpiredNonces of nonce.go: delete every stored entry strictly
older than the lifetime. -/
def pruneExpiredNonces (store : NonceStore) (now : Int) : NonceStore :=
  fun a =>
    match store a with
    | some n => if nonceLifetime < now - n.timestamp then none else some n
    | none => none

/-! ## Geolocation quantization and location commitment -/

/-- GetDynamicPrecision: placeholder precision policy, always 100 meters. -/
def getDynamicPrecision : Except String ℚ := .ok 100

/-- ConvertToPrecisionGrid: quantize a latitude/longitude pair to grid
indices.  The meters-per-degree longitude factor uses math.Cos of the
latitude in radians, supplied as the oracle cosDeg (a function of the
latitude in degrees). -/
def convertToPrecisionGrid (cosDeg : ℚ → ℚ) (lat lon precision : ℚ) :
    Except String (List Int) :=
  if precision ≤ 0 then .error "precision must be greater than zero"
  else
    let latDegreeToMeter : ℚ := 1113199 / 10
    let longitudeDegreeToMeter := cosDeg lat * latDegreeToMeter
    .ok [goRound (lat * latDegreeToMeter / precision),
         goRound (lon * longitudeDegreeToMeter / precision)]

/-- The serialized quantized location of a coordinate pair at the default
100-meter precision: SafeLatitudeLongitude.Bytes is json.Marshal of the
two grid indices. -/
def quantizedLocationBytes (cosDeg : ℚ → ℚ) (lat lon : ℚ) : Bytes :=
  match convertToPrecisionGrid cosDeg lat lon 100 with
  | .ok loc => strBytes (jsonIntList loc)
  | .error _ => []

/-! ## Base64 encodings used when assembling AddressInfo -/

/-- The standard base64 alphabet character for a 6-bit value. -/
def base64Char (n : Nat) : Char :=
  if n < 26 then Char.ofNat (65 + n)
  else if n < 52 then Char.ofNat (97 + (n - 26))
  else if n < 62 then Char.ofNat (48 + (n - 52))
  else if n = 62 then '+' else '/'

/-- Base64 encoding of a byte list, without padding. -/
def base64Chunks : Bytes → List Char
  | b0 :: b1 :: b2 :: rest =>
      base64Char (b0 / 4) :: base64Char (b0 % 4 * 16 + b1 / 16) ::
        base64Char (b1 % 16 * 4 + b2 / 64) :: base64Char (b2 % 64) :: base64Chunks rest
  | [b0, b1] => [base64Char (b0 / 4), base64Char (b0 % 4 * 16 + b1 / 16), base64Char (b1 % 16 * 4)]
  | [b0] => [base64Char (b0 / 4), base64Char (b0 % 4 * 16)]
  | [] => []

/-- base64.RawStdEncoding.EncodeToString: standard alphabet, no padding. -/
def base64RawStd (b : Bytes) : String := String.mk (base64Chunks b)

/-- base64.StdEncoding.EncodeToString: standard alphabet with = padding. -/
def base64Std (b : Bytes) : String :=
  String.mk (base64Chunks b ++
    (match b.length % 3 with
     | 1 => ['=', '=']
     | 2 => ['=']
     | _ => []))

/-! ## AddressInfo, the LRU cache and the orchestrator -/

/-- The AddressInfo record: the five externally visible fields, as byte
strings (Go strings are byte strings). -/
structure AddressInfo where
  publicKey : Bytes
  locationCommitment : Bytes
  zkpProof : Bytes
  nonceValue : Bytes
  nonceHash : Bytes
deriving DecidableEq, Repr

/-- The hashicorp/golang-lru cache of capacity 100, modelled as an
association list ordered most-recently-used first. -/
abbrev Cache := List (String × AddressInfo)

/-- lru Get: on a hit, return the value and the cache with the entry
promoted to most-recently-used. -/
def cacheGet (cache : Cache) (k : String) : Option (AddressInfo × Cache) :=
  match cache.find? (fun e => e.1 == k) with
  | some e => some (e.2, (k, e.2) :: cache.filter (fun e2 => e2.1 != k))
  | none => none

/-- lru Add: insert as most-recently-used, dropping any old entry with the
same key and evicting the least-recently-used entry beyond capacity 100. -/
def cacheAdd (cache : Cache) (k : String) (v : AddressInfo) : Cache :=
  ((k, v) :: cache.filter (fun e2 => e2.1 != k)).take 100

/-- The process state mutated by the orchestrator: the address cache and
the nonce registry map. -/
structure SysState where
  cache : Cache
  nonces : NonceStore

/-- The empty initial state. -/
def emptyState : SysState := ⟨[], emptyNonceStore⟩

/-- The external collaborators of one GenerateAddress call: the cosine
used by the quantizer, the blake3 hash, the libzk13 prover pipeline
(taking the secret hash bytes and the bit length, returning the proof
string r.R.Text(16) followed by a bar and r.P.Text(16), as bytes), the
hybrid key generation (kyber plus the post-quantum KEM; an Except because
any native-primitive failure surfaces as its error), the location
commitment (likewise), the randomness source, and the current time. -/
structure Collab where
  cosDeg : ℚ → ℚ
  blake3 : Bytes → Bytes
  proofFromHash : Bytes → Int → Bytes
  pubKeyGen : Except String Bytes
  commit : Bytes → Except String Bytes
  randOk : Bool
  randByte : Nat → Nat
  now : Int

/-- The coordinate-validation error message for an out-of-range latitude. -/
def invalidLatMsg (lat : ℚ) : String :=
  "invalid latitude: " ++ format6 lat ++ ", must be between -90 and 90"

/-- The coordinate-validation error message for an out-of-range longitude. -/
def invalidLonMsg (lon : ℚ) : String :=
  "invalid longitude: " ++ format6 lon ++ ", must be between -180 and 180"

/-- GenerateAddress.  Validates bits then latitude then longitude; looks
the coordinate key up in the cache and returns the stored record on a
hit; otherwise runs the four sub-operations (hybrid key generation,
quantization plus commitment, proof generation over the blake3 hash of
the coordinate key string, nonce issuance), checks the error slots of
the first two (the proof and nonce goroutines never set their slots, as
in the source), and assembles and caches the AddressInfo.  A nil nonce
from a failed randomness source is dereferenced without a check, which
is a runtime crash. -/
def generateAddress (c : Collab) (lat lon : ℚ) (bits : Int) (s : SysState) :
    GoOutcome AddressInfo × SysState :=
  if bits ≤ 0 then (.err "bits must be positive", s)
  else if lat < -90 ∨ 90 < lat then (.err (invalidLatMsg lat), s)
  else if lon < -180 ∨ 180 < lon then (.err (invalidLonMsg lon), s)
  else
    let key := coordKey lat lon
    match cacheGet s.cache key with
    | some hit => (.ok hit.1, { s with cache := hit.2 })
    | none =>
      let pkRes := c.pubKeyGen
      let geoRes : Except String Bytes :=
        match getDynamicPrecision with
        | .error e => .error e
        | .ok precision =>
          match convertToPrecisionGrid c.cosDeg lat lon precision with
          | .error e => .error e
          | .ok loc => c.commit (strBytes (jsonIntList loc))
      let proofStr := c.proofFromHash (c.blake3 (strBytes key)) bits
      let nonceRes := generateOrUpdateNonce c.blake3 ⟨c.randOk, c.randByte⟩ c.now s.nonces key
      let s1 : SysState := { s with nonces := nonceRes.2 }
      match pkRes with
      | .error e => (.err e, s1)
      | .ok pk =>
        match geoRes with
        | .error e => (.err e, s1)
        | .ok lc =>
          match nonceRes.1 with
          | none => (.crash, s1)
          | some n =>
            let ai : AddressInfo :=
              { publicKey := strBytes (base64RawStd pk)
                locationCommitment := strBytes (base64RawStd lc)
                zkpProof := proofStr
                nonceValue := strBytes (base64Std n.value)
                nonceHash := strBytes (base64Std n.hash) }
            (.ok ai, { s1 with cache := cacheAdd s1.cache key ai })

/-- The per-goroutine outcomes of GenerateAddressesBatch, in input order,
threaded through the shared state in one linearization of the concurrent
fan-out; cs gives each index its collaborators (its own fresh randomness
and crypto calls). -/
def runBatch (cs : Nat → Collab) (bits : Int) :
    Nat → List (ℚ × ℚ) → SysState → List (GoOutcome AddressInfo) × SysState
  | _, [], s => ([], s)
  | i, (lat, lon) :: rest, s =>
      let r := generateAddress (cs i) lat lon bits s
      let rr := runBatch cs bits (i + 1) rest r.2
      (r.1 :: rr.1, rr.2)

/-- The first error message among the goroutine outcomes, in index order,
as scanned by the final loop of GenerateAddressesBatch. -/
def firstErrMsg : List (GoOutcome AddressInfo) → Option String
  | [] => none
  | .err e :: _ => some e
  | _ :: rest => firstErrMsg rest

/-- Collapse the goroutine outcomes exactly as the batch function does: a
crash in any goroutine crashes the process; otherwise the first error, if
any, is returned with no address list; otherwise the ordered list of all
results. -/
def collectBatch (os : List (GoOutcome AddressInfo)) : GoOutcome (List AddressInfo) :=
  if os.any GoOutcome.isCrash then .crash
  else
    match firstErrMsg os with
    | some e => .err e
    | none => .ok (os.filterMap GoOutcome.toOk)

/-- GenerateAddressesBatch: one GenerateAddress per coordinate pair,
results joined all-or-nothing. -/
def generateAddressesBatch (cs : Nat → Collab) (coords : List (ℚ × ℚ)) (bits : Int)
    (s : SysState) : GoOutcome (List AddressInfo) × SysState :=
  let r := runBatch cs bits 0 coords s
  (collectBatch r.1, r.2)

/-! ## Binary codec of AddressInfo -/

/-- MarshalBinary: publicKey, locationCommitment and ZKPProof concatenated
with single zero-byte separators.  The nonce fields are not serialized. -/
def marshalBinary (ai : AddressInfo) : Bytes :=
  ai.publicKey ++ [0] ++ ai.locationCommitment ++ [0] ++ ai.zkpProof

/-- bytes.Split of a byte string on the single-byte separator zero. -/
def splitOnZero : Bytes → List Bytes
  | [] => [[]]
  | b :: rest =>
      match splitOnZero rest with
      | [] => if b = 0 then [[], []] else [[b]]
      | h :: t => if b = 0 then [] :: h :: t else (b :: h) :: t

/-- UnmarshalBinary: split on the zero separator, demand exactly three
parts, and overwrite the three serialized fields of the receiver; the
receiver's nonce fields are left as they were. -/
def unmarshalBinary (ai : AddressInfo) (data : Bytes) : GoOutcome AddressInfo :=
  match splitOnZero data with
  | [a, b, c] =>
      .ok { ai with publicKey := a, locationCommitment := b, zkpProof := c }
  | _ => .err "invalid binary format"

/-! ## Concrete oracles and inputs used by witnesses and counterexamples -/

/-- A concrete set of collaborators for evaluating the embedding on
closed inputs: the hash is the identity on bytes, the prover returns its
secret hash input unchanged, the cosine is the constant one, key
generation and commitment succeed with empty byte strings, and the
randomness source yields zero bytes. -/
def c0 : Collab :=
  { cosDeg := fun _ => 1
    blake3 := fun b => b
    proofFromHash := fun h _ => h
    pubKeyGen := .ok []
    commit := fun _ => .ok []
    randOk := true
    randByte := fun _ => 0
    now := 0 }

/-- The collaborators of c0 with a failing randomness source. -/
def cFail : Collab := { c0 with randOk := false }

/-- Well-formedness of the nonce registry: every stored nonce carries its
own map key in its Address field, and its Hash field is the hash of the
address bytes followed by the value bytes. -/
def registryInv (hb : Bytes → Bytes) (store : NonceStore) : Prop :=
  ∀ id n, store id = some n →
    n.address = id ∧ n.hash = hb (strBytes id ++ n.value)

/-- A one-entry nonce store used by witnesses: the identity hash, the
zero byte stream, issuance time zero. -/
def wStore : NonceStore :=
  (generateOrUpdateNonce (fun b => b) ⟨true, fun _ => 0⟩ 0 emptyNonceStore "alice").2

/-- The nonce stored in wStore, used as a concrete candidate. -/
def wNonce : Nonce := freshNonce (fun b => b) ⟨true, fun _ => 0⟩ 0 "alice"

/-- An artificially aged nonce (issued 4000 seconds before time zero). -/
def agedNonce : Nonce := ⟨"old", [1], strBytes "old" ++ [1], -4000⟩

/-- wStore with the aged nonce added under its own identity. -/
def wStore2 : NonceStore := updateStore wStore "old" agedNonce

/-! # Theorems

First the helper lemmas shared between claims, then one theorem per
claim (with its witness or counterexample where required). -/

/-- Case analysis of GenerateOrUpdateNonce: either a stored unexpired
nonce is returned with the map untouched, or a fresh nonce is built and
stored, or the randomness source failed and nil is returned with the map
untouched. -/
theorem genNonce_cases (hb : Bytes → Bytes) (r : RandOracle) (now : Int)
    (store : NonceStore) (id : String) :
    (∃ st, store id = some st ∧ now - st.timestamp ≤ nonceLifetime ∧
      generateOrUpdateNonce hb r now store id = (some st, store)) ∨
    ((store id = none ∨ ∃ st, store id = some st ∧ nonceLifetime < now - st.timestamp) ∧
      ((r.ok = true ∧ generateOrUpdateNonce hb r now store id =
          (some (freshNonce hb r now id), updateStore store id (freshNonce hb r now id))) ∨
       (r.ok = false ∧ generateOrUpdateNonce hb r now store id = (none, store)))) := by
  unfold generateOrUpdateNonce
  cases hst : store id with
  | some st =>
    by_cases hfr : now - st.timestamp ≤ nonceLifetime
    · exact Or.inl ⟨st, rfl, hfr, by simp [hfr]⟩
    · refine Or.inr ⟨Or.inr ⟨st, rfl, by omega⟩, ?_⟩
      cases hro : r.ok with
      | true => exact Or.inl ⟨rfl, by simp [hfr, hro]⟩
      | false => exact Or.inr ⟨rfl, by simp [hfr, hro]⟩
  | none =>
    refine Or.inr ⟨Or.inl rfl, ?_⟩
    cases hro : r.ok with
    | true => exact Or.inl ⟨rfl, by simp [hro]⟩
    | false => exact Or.inr ⟨rfl, by simp [hro]⟩

/-- Point lookup after a store update. -/
theorem updateStore_self (store : NonceStore) (id : String) (n : Nonce) :
    updateStore store id n id = some n := by
  simp [updateStore]

/-- Lookup of another key after a store update. -/
theorem updateStore_other (store : NonceStore) (id id2 : String) (n : Nonce)
    (h : id2 ≠ id) : updateStore store id n id2 = store id2 := by
  simp [updateStore, h]

/-- Claim C7: ValidateNonce(identity, candidate) is true iff a nonce is
stored for the identity, the candidate value bytes and hash bytes equal
the stored ones, and the stored nonce is at most 3600 seconds old; in
particular it is true immediately after GenerateOrUpdateNonce returns a
nonce for that identity, false for a different identity with no stored
nonce, and false once the stored nonce is older than 3600 seconds. -/
theorem validateNonce_spec (hb : Bytes → Bytes) (r : RandOracle)
    (store : NonceStore) (now t : Int) (id id2 : String) (cand : Nonce) :
    (validateNonce store now id cand = true ↔
      ∃ st, store id = some st ∧ cand.value = st.value ∧ cand.hash = st.hash ∧
        now - st.timestamp ≤ nonceLifetime) ∧
    (∀ n store2, generateOrUpdateNonce hb r t store id = (some n, store2) →
      validateNonce store2 t id n = true) ∧
    (∀ n store2, generateOrUpdateNonce hb r t store id = (some n, store2) →
      id2 ≠ id → store id2 = none → validateNonce store2 t id2 n = false) ∧
    (∀ st, store id = some st → nonceLifetime < now - st.timestamp →
      validateNonce store now id cand = false) := by
  refine ⟨?_, ?_, ?_, ?_⟩
  · unfold validateNonce
    cases hst : store id with
    | some st =>
      simp only [Bool.and_eq_true, beq_iff_eq, decide_eq_true_eq]
      constructor
      · rintro ⟨⟨h1, h2⟩, h3⟩; exact ⟨st, rfl, h1, h2, h3⟩
      · rintro ⟨st', hst', h1, h2, h3⟩
        cases hst'; exact ⟨⟨h1, h2⟩, h3⟩
    | none => simp
  · intro n store2 hgen
    rcases genNonce_cases hb r t store id with ⟨st, hst, hfr, heq⟩ | ⟨_, hok | hko⟩
    · rw [heq] at hgen
      obtain ⟨hn, hs⟩ := Prod.mk.injEq .. ▸ hgen
      cases hn; cases hs
      unfold validateNonce
      simp [hst, hfr]
    · rw [hok.2] at hgen
      obtain ⟨hn, hs⟩ := Prod.mk.injEq .. ▸ hgen
      cases hn; cases hs
      unfold validateNonce
      rw [updateStore_self]
      simp [freshNonce, nonceLifetime]
    · rw [hko.2] at hgen
      exact absurd (congrArg Prod.fst hgen) (by simp)
  · intro n store2 hgen hne hnone
    have hs2 : store2 id2 = none := by
      rcases genNonce_cases hb r t store id with ⟨st, _, _, heq⟩ | ⟨_, hok | hko⟩
      · rw [heq] at hgen; cases congrArg Prod.snd hgen; exact hnone
      · rw [hok.2] at hgen
        cases congrArg Prod.snd hgen
        simp [updateStore, hne, hnone]
      · rw [hko.2] at hgen; cases congrArg Prod.snd hgen; exact hnone
    unfold validateNonce
    rw [hs2]
  · intro st hst hold
    unfold validateNonce
    rw [hst]
    simp [show ¬ now - st.timestamp ≤ nonceLifetime by omega]

/-- Witness for claim C7 at a concrete store: validation succeeds for the
identity just issued and fails for an identity with no stored nonce. -/
theorem validateNonce_spec_witness :
    validateNonce wStore 0 "alice" wNonce = true ∧
    validateNonce wStore 0 "bob" wNonce = false := by
  have h := validateNonce_spec (fun b => b) ⟨true, fun _ => 0⟩ emptyNonceStore 0 0 "alice" "bob" wNonce
  refine ⟨h.2.1 wNonce wStore ?_, h.2.2.1 wNonce wStore ?_ (by decide) rfl⟩
  · unfold wStore wNonce generateOrUpdateNonce emptyNonceStore
    rfl
  · unfold wStore wNonce generateOrUpdateNonce emptyNonceStore
    rfl

/-- Claim C8: GenerateOrUpdateNonce returns a stored unexpired nonce
unchanged with the map untouched; otherwise, when randomness is
available, it builds a fresh nonce whose value has 32 bytes, whose hash
is the keyed hash of the identity bytes followed by the value bytes, and
whose timestamp is the current time, overwrites exactly the entry of
that identity, and returns it. -/
theorem generateOrUpdateNonce_spec (hb : Bytes → Bytes) (r : RandOracle) (now : Int)
    (store : NonceStore) (id : String) :
    (∀ st, store id = some st → now - st.timestamp ≤ nonceLifetime →
      generateOrUpdateNonce hb r now store id = (some st, store)) ∧
    ((store id = none ∨ ∃ st, store id = some st ∧ nonceLifetime < now - st.timestamp) →
      r.ok = true →
      generateOrUpdateNonce hb r now store id =
        (some (freshNonce hb r now id), updateStore store id (freshNonce hb r now id)) ∧
      (freshNonce hb r now id).address = id ∧
      (freshNonce hb r now id).value.length = nonceSize ∧
      (freshNonce hb r now id).hash = hb (strBytes id ++ (freshNonce hb r now id).value) ∧
      (freshNonce hb r now id).timestamp = now ∧
      updateStore store id (freshNonce hb r now id) id = some (freshNonce hb r now id) ∧
      ∀ id2, id2 ≠ id → updateStore store id (freshNonce hb r now id) id2 = store id2) := by
  constructor
  · intro st hst hfr
    unfold generateOrUpdateNonce
    simp [hst, hfr]
  · intro hstale hro
    have heq : generateOrUpdateNonce hb r now store id =
        (some (freshNonce hb r now id), updateStore store id (freshNonce hb r now id)) := by
      rcases genNonce_cases hb r now store id with ⟨st, hst, hfr, _⟩ | ⟨_, hok | hko⟩
      · rcases hstale with hn | ⟨st2, hst2, hold⟩
        · rw [hn] at hst; cases hst
        · rw [hst2] at hst; cases hst; omega
      · exact hok.2
      · rw [hko.1] at hro; cases hro
    refine ⟨heq, rfl, ?_, ?_, rfl, updateStore_self .., fun id2 h => updateStore_other _ _ _ _ h⟩
    · simp [freshNonce]
    · simp [freshNonce, generateNonceHash]

/-- Witness for claim C8: on an empty store at time zero with the zero
byte stream, a nonce is issued for alice with a 32-byte value. -/
theorem generateOrUpdateNonce_spec_witness :
    (generateOrUpdateNonce (fun b => b) ⟨true, fun _ => 0⟩ 0 emptyNonceStore "alice").1 =
      some wNonce ∧ wNonce.value.length = 32 := by
  have h := (generateOrUpdateNonce_spec (fun b => b) ⟨true, fun _ => 0⟩ 0
    emptyNonceStore "alice").2 (Or.inl rfl) rfl
  exact ⟨by rw [h.1]; rfl, h.2.2.1⟩

/-- Claim C9: pruning removes exactly the entries strictly older than the
3600-second lifetime and keeps every other entry unchanged; after the
prune, validation of an aged identity fails and validation of a fresh
identity against its own stored nonce still succeeds. -/
theorem pruneExpiredNonces_spec (store : NonceStore) (now : Int) (id : String) (cand : Nonce) :
    (∀ n, store id = some n → nonceLifetime < now - n.timestamp →
      pruneExpiredNonces store now id = none ∧
      validateNonce (pruneExpiredNonces store now) now id cand = false) ∧
    (∀ n, store id = some n → now - n.timestamp ≤ nonceLifetime →
      pruneExpiredNonces store now id = some n ∧
      validateNonce (pruneExpiredNonces store now) now id n = true) ∧
    (store id = none → pruneExpiredNonces store now id = none) := by
  refine ⟨?_, ?_, ?_⟩
  · intro n hst hold
    have hp : pruneExpiredNonces store now id = none := by
      simp [pruneExpiredNonces, hst, hold]
    exact ⟨hp, by unfold validateNonce; rw [hp]⟩
  · intro n hst hfr
    have hp : pruneExpiredNonces store now id = some n := by
      simp [pruneExpiredNonces, hst, show ¬ nonceLifetime < now - n.timestamp by omega]
    refine ⟨hp, ?_⟩
    unfold validateNonce
    rw [hp]
    simp [hfr]
  · intro hst
    simp [pruneExpiredNonces, hst]

/-- Witness for claim C9 on a store holding one aged and one fresh entry:
post prune, the aged identity no longer validates and the fresh one
still does. -/
theorem pruneExpiredNonces_spec_witness :
    validateNonce (pruneExpiredNonces wStore2 0) 0 "old" agedNonce = false ∧
    validateNonce (pruneExpiredNonces wStore2 0) 0 "alice" wNonce = true := by
  refine ⟨((pruneExpiredNonces_spec wStore2 0 "old" agedNonce).1 agedNonce ?_ (by decide)).2,
    ((pruneExpiredNonces_spec wStore2 0 "alice" wNonce).2.1 wNonce ?_ (by decide)).2⟩
  · rfl
  · unfold wStore2 updateStore wStore generateOrUpdateNonce emptyNonceStore
    rfl

/-- Claim C10: the registry well-formedness invariant (each stored nonce
carries its map key as its Address and the keyed hash of address bytes
followed by value bytes as its Hash) holds for the empty store and is
preserved by GenerateOrUpdateNonce and PruneExpiredNonces; ValidateNonce
does not modify the store. -/
theorem registryInv_preserved (hb : Bytes → Bytes) (r : RandOracle) (now : Int)
    (store : NonceStore) (id : String) :
    registryInv hb emptyNonceStore ∧
    (registryInv hb store → registryInv hb (generateOrUpdateNonce hb r now store id).2) ∧
    (registryInv hb store → registryInv hb (pruneExpiredNonces store now)) := by
  refine ⟨?_, ?_, ?_⟩
  · intro id2 n h
    exact absurd h (by simp [emptyNonceStore])
  · intro hinv
    rcases genNonce_cases hb r now store id with ⟨st, _, _, heq⟩ | ⟨_, hok | hko⟩
    · rw [heq]; exact hinv
    · rw [hok.2]
      show registryInv hb (updateStore store id (freshNonce hb r now id))
      intro id2 n h
      by_cases hid : id2 = id
      · subst hid
        rw [updateStore_self] at h
        cases h
        exact ⟨rfl, by simp [freshNonce, generateNonceHash]⟩
      · rw [updateStore_other _ _ _ _ hid] at h
        exact hinv id2 n h
    · rw [hko.2]; exact hinv
  · intro hinv id2 n h
    unfold pruneExpiredNonces at h
    cases hst : store id2 with
    | some m =>
      by_cases hage : nonceLifetime < now - m.timestamp
      · simp [hst, hage] at h
      · simp [hst, hage] at h
        subst h
        exact hinv id2 m hst
    | none => simp [hst] at h

/-- Witness for claim C10: the invariant holds for the concrete store
obtained by issuing a nonce for alice on the empty store. -/
theorem registryInv_preserved_witness :
    registryInv (fun b => b) wStore := by
  have h := registryInv_preserved (fun b => b) ⟨true, fun _ => 0⟩ 0 emptyNonceStore "alice"
  exact h.2.1 h.1

/-- One-step unfolding of splitOnZero on a cons cell. -/
theorem splitOnZero_cons (b : Nat) (rest : Bytes) :
    splitOnZero (b :: rest) =
      match splitOnZero rest with
      | [] => if b = 0 then [[], []] else [[b]]
      | h :: t => if b = 0 then [] :: h :: t else (b :: h) :: t := rfl

/-- splitOnZero never returns an empty list of parts. -/
theorem splitOnZero_ne_nil (l : Bytes) : splitOnZero l ≠ [] := by
  cases l with
  | nil => simp [splitOnZero]
  | cons b rest =>
    rw [splitOnZero_cons]
    cases h : splitOnZero rest with
    | nil => by_cases hb : b = 0 <;> simp [hb]
    | cons x t => by_cases hb : b = 0 <;> simp [hb]

/-- splitOnZero on a leading separator adds an empty leading part. -/
theorem splitOnZero_cons_zero (r : Bytes) :
    splitOnZero (0 :: r) = [] :: splitOnZero r := by
  rw [splitOnZero_cons]
  cases hs : splitOnZero r with
  | nil => exact absurd hs (splitOnZero_ne_nil r)
  | cons x t => simp

/-- splitOnZero on a leading non-separator byte prepends it to the first
part. -/
theorem splitOnZero_cons_ne (b : Nat) (r : Bytes) (hb : ¬ b = 0) :
    splitOnZero (b :: r) =
      (b :: (splitOnZero r).headI) :: (splitOnZero r).tail := by
  rw [splitOnZero_cons]
  cases hs : splitOnZero r with
  | nil => exact absurd hs (splitOnZero_ne_nil r)
  | cons x t => simp [hb]

/-- A byte string without the separator is a single part. -/
theorem splitOnZero_no_zero (l : Bytes) (h : ¬ 0 ∈ l) : splitOnZero l = [l] := by
  induction l with
  | nil => rfl
  | cons b rest ih =>
    have hb : ¬ b = 0 := fun hb => h (by simp [hb])
    have hr : ¬ 0 ∈ rest := fun hm => h (List.mem_cons_of_mem _ hm)
    rw [splitOnZero_cons_ne b rest hb, ih hr]
    simp

/-- Splitting peels off a separator-free prefix before a separator. -/
theorem splitOnZero_append (a r : Bytes) (h : ¬ 0 ∈ a) :
    splitOnZero (a ++ 0 :: r) = a :: splitOnZero r := by
  induction a with
  | nil =>
    simp only [List.nil_append]
    exact splitOnZero_cons_zero r
  | cons b a2 ih =>
    have hb : ¬ b = 0 := fun hb => h (by simp [hb])
    have ha : ¬ 0 ∈ a2 := fun hm => h (List.mem_cons_of_mem _ hm)
    simp only [List.cons_append]
    rw [splitOnZero_cons_ne b (a2 ++ 0 :: r) hb, ih ha]
    simp

/-- Counterexample to claim C5 as stated: the binary codec round-trip
does not restore all five fields.  For a record whose string fields have
no zero byte, decoding the encoding into a fresh receiver yields empty
nonceValue and nonceHash, because MarshalBinary never serializes them. -/
theorem binary_roundtrip_cx :
    unmarshalBinary ⟨[], [], [], [], []⟩
      (marshalBinary ⟨strBytes "pk", strBytes "lc", strBytes "pf",
        strBytes "nv", strBytes "nh"⟩) =
      .ok ⟨strBytes "pk", strBytes "lc", strBytes "pf", [], []⟩ ∧
    unmarshalBinary ⟨[], [], [], [], []⟩
      (marshalBinary ⟨strBytes "pk", strBytes "lc", strBytes "pf",
        strBytes "nv", strBytes "nh"⟩) ≠
      .ok ⟨strBytes "pk", strBytes "lc", strBytes "pf",
        strBytes "nv", strBytes "nh"⟩ := by
  decide

/-- Claim C5 (amended): for every AddressInfo whose publicKey,
locationCommitment and zkpProof contain no zero byte, UnmarshalBinary
applied to the output of MarshalBinary reconstructs exactly those three
fields; the nonceValue and nonceHash fields are not carried by the
binary codec and keep whatever the receiving record held. -/
theorem binary_roundtrip_amended (x prior : AddressInfo)
    (h1 : ¬ 0 ∈ x.publicKey) (h2 : ¬ 0 ∈ x.locationCommitment) (h3 : ¬ 0 ∈ x.zkpProof) :
    unmarshalBinary prior (marshalBinary x) =
      .ok { prior with publicKey := x.publicKey,
                       locationCommitment := x.locationCommitment,
                       zkpProof := x.zkpProof } := by
  unfold unmarshalBinary marshalBinary
  rw [show x.publicKey ++ [0] ++ x.locationCommitment ++ [0] ++ x.zkpProof
      = x.publicKey ++ 0 :: (x.locationCommitment ++ 0 :: x.zkpProof) by simp]
  rw [splitOnZero_append _ _ h1, splitOnZero_append _ _ h2, splitOnZero_no_zero _ h3]

/-- Witness for the amended claim C5 at concrete byte strings: the three
serialized fields come back and the receiver keeps its nonce fields. -/
theorem binary_roundtrip_amended_witness :
    unmarshalBinary ⟨strBytes "pk", strBytes "lc", strBytes "pf",
        strBytes "nv", strBytes "nh"⟩
      (marshalBinary ⟨[1], [2], [3], [4], [5]⟩) =
      .ok ⟨[1], [2], [3], strBytes "nv", strBytes "nh"⟩ :=
  binary_roundtrip_amended ⟨[1], [2], [3], [4], [5]⟩ _ (by decide) (by decide) (by decide)

/-- A cache hit always returns the cache with the found entry promoted to
the front under its key. -/
theorem cacheGet_some (cache : Cache) (k : String) (hit : AddressInfo × Cache)
    (h : cacheGet cache k = some hit) :
    hit.2 = (k, hit.1) :: cache.filter (fun e2 => e2.1 != k) := by
  unfold cacheGet at h
  cases hf : cache.find? (fun e => e.1 == k) with
  | none => rw [hf] at h; cases h
  | some e => rw [hf] at h; cases h; rfl

/-- Looking up the key of the front entry hits it. -/
theorem cacheGet_cons_self (k : String) (v : AddressInfo) (rest : Cache) :
    cacheGet ((k, v) :: rest) k =
      some (v, (k, v) :: ((k, v) :: rest).filter (fun e2 => e2.1 != k)) := by
  unfold cacheGet
  rw [List.find?_cons_of_pos _ (by simp)]

/-- Adding to the cache puts the new entry at the front. -/
theorem cacheAdd_head (cache : Cache) (k : String) (v : AddressInfo) :
    ∃ rest, cacheAdd cache k v = (k, v) :: rest := by
  refine ⟨(cache.filter (fun e2 => e2.1 != k)).take 99, ?_⟩
  unfold cacheAdd
  rfl

/-- The quantizer never fails at the default 100-meter precision. -/
theorem convertGrid_100 (cosDeg : ℚ → ℚ) (lat lon : ℚ) :
    convertToPrecisionGrid cosDeg lat lon 100 =
      .ok [goRound (lat * (1113199 / 10) / 100),
           goRound (lon * (cosDeg lat * (1113199 / 10)) / 100)] := by
  unfold convertToPrecisionGrid
  rw [if_neg (by norm_num)]

/-- Characterization of a successful GenerateAddress call: validation
passed, the resulting state has the issued record at the front of the
cache under the coordinate key, and on a cache miss the proof field is
the prover output over the blake3 hash of the coordinate key string. -/
theorem generateAddress_ok_char (c : Collab) (lat lon : ℚ) (bits : Int) (s : SysState)
    (ai : AddressInfo) (s₁ : SysState)
    (h : generateAddress c lat lon bits s = (.ok ai, s₁)) :
    ¬ bits ≤ 0 ∧ ¬ (lat < -90 ∨ 90 < lat) ∧ ¬ (lon < -180 ∨ 180 < lon) ∧
    (∃ rest, s₁.cache = (coordKey lat lon, ai) :: rest) ∧
    (cacheGet s.cache (coordKey lat lon) = none →
      ai.zkpProof = c.proofFromHash (c.blake3 (strBytes (coordKey lat lon))) bits) := by
  by_cases hb : bits ≤ 0
  · unfold generateAddress at h; rw [if_pos hb] at h; simp at h
  by_cases hlat : lat < -90 ∨ 90 < lat
  · unfold generateAddress at h; rw [if_neg hb, if_pos hlat] at h; simp at h
  by_cases hlon : lon < -180 ∨ 180 < lon
  · unfold generateAddress at h; rw [if_neg hb, if_neg hlat, if_pos hlon] at h; simp at h
  refine ⟨hb, hlat, hlon, ?_⟩
  unfold generateAddress at h
  rw [if_neg hb, if_neg hlat, if_neg hlon] at h
  cases hcg : cacheGet s.cache (coordKey lat lon) with
  | some hit =>
    simp only [hcg] at h
    obtain ⟨hfst, hsnd⟩ := Prod.mk.injEq .. ▸ h
    have h1 : hit.1 = ai := by injection hfst
    constructor
    · refine ⟨s.cache.filter (fun e2 => e2.1 != coordKey lat lon), ?_⟩
      rw [← hsnd]
      show hit.2 = _
      rw [cacheGet_some _ _ _ hcg, h1]
    · intro hmiss; simp at hmiss
  | none =>
    simp only [hcg, getDynamicPrecision, convertGrid_100] at h
    cases hpk : c.pubKeyGen with
    | error e => simp only [hpk] at h; simp at h
    | ok pk =>
      simp only [hpk] at h
      cases hcm : c.commit (strBytes (jsonIntList
          [goRound (lat * (1113199 / 10) / 100),
           goRound (lon * (c.cosDeg lat * (1113199 / 10)) / 100)])) with
      | error e => simp only [hcm] at h; simp at h
      | ok lc =>
        simp only [hcm] at h
        cases hnn : (generateOrUpdateNonce c.blake3 ⟨c.randOk, c.randByte⟩ c.now
            s.nonces (coordKey lat lon)).1 with
        | none => simp only [hnn] at h; simp at h
        | some n =>
          simp only [hnn] at h
          obtain ⟨hfst, hsnd⟩ := Prod.mk.injEq .. ▸ h
          have hai : ({ publicKey := strBytes (base64RawStd pk)
                        locationCommitment := strBytes (base64RawStd lc)
                        zkpProof := c.proofFromHash (c.blake3 (strBytes (coordKey lat lon))) bits
                        nonceValue := strBytes (base64Std n.value)
                        nonceHash := strBytes (base64Std n.hash) } : AddressInfo) = ai := by
            injection hfst
          rw [hai] at hsnd
          constructor
          · rw [← hsnd]
            exact cacheAdd_head s.cache (coordKey lat lon) ai
          · intro _
            rw [← hai]

/-- Counterexample to claim C1 as stated: at coordinates (40.7128,
-74.0060) on an empty state, issuance succeeds but the proof field is not
the prover output over a hash of the quantized-location bytes -- the code
hashes the raw fixed-precision coordinate string instead. -/
theorem zkp_secret_source_cx :
    (generateAddress c0 (40.7128 : ℚ) (-74.0060 : ℚ) 256 emptyState).1.isOk = true ∧
    ((generateAddress c0 (40.7128 : ℚ) (-74.0060 : ℚ) 256 emptyState).1.toOk).map
        AddressInfo.zkpProof ≠
      some (c0.proofFromHash
        (c0.blake3 (quantizedLocationBytes c0.cosDeg (40.7128 : ℚ) (-74.0060 : ℚ))) 256) := by
  decide

/-- Claim C1 (amended): for every fresh (cache-miss) successful issuance,
the ZK proof artifact is the prover output over the blake3 hash of the
fixed-precision decimal coordinate key string of the raw inputs, not of
the quantized location. -/
theorem zkp_secret_source_amended (c : Collab) (lat lon : ℚ) (bits : Int) (s : SysState)
    (ai : AddressInfo) (s₁ : SysState)
    (hmiss : cacheGet s.cache (coordKey lat lon) = none)
    (h : generateAddress c lat lon bits s = (.ok ai, s₁)) :
    ai.zkpProof = c.proofFromHash (c.blake3 (strBytes (coordKey lat lon))) bits :=
  (generateAddress_ok_char c lat lon bits s ai s₁ h).2.2.2.2 hmiss

/-- Witness for the amended claim C1 at the origin on the empty state. -/
theorem zkp_secret_source_amended_witness :
    ((generateAddress c0 0 0 256 emptyState).1.toOk).map AddressInfo.zkpProof =
      some (c0.proofFromHash (c0.blake3 (strBytes (coordKey 0 0))) 256) := by
  cases hh : (generateAddress c0 0 0 256 emptyState).1 with
  | ok ai =>
    have h : generateAddress c0 0 0 256 emptyState =
        (.ok ai, (generateAddress c0 0 0 256 emptyState).2) := by
      rw [← hh]
    have h1 := zkp_secret_source_amended c0 0 0 256 emptyState ai
      (generateAddress c0 0 0 256 emptyState).2 rfl h
    simp [GoOutcome.toOk, h1]
  | err e =>
    have hOk : (generateAddress c0 0 0 256 emptyState).1.isOk = true := by decide
    rw [hh] at hOk
    simp [GoOutcome.isOk] at hOk
  | crash =>
    have hOk : (generateAddress c0 0 0 256 emptyState).1.isOk = true := by decide
    rw [hh] at hOk
    simp [GoOutcome.isOk] at hOk

/-- Counterexample to claim C2 as stated: at latitude 91 with bits 0 the
call fails with the parameter error, not a coordinate error, because the
bits check runs first. -/
theorem generateAddress_validation_cx :
    (generateAddress c0 91 0 0 emptyState).1 = .err "bits must be positive" ∧
    (generateAddress c0 91 0 0 emptyState).1 ≠ .err (invalidLatMsg 91) ∧
    (generateAddress c0 91 0 0 emptyState).1 ≠ .err (invalidLonMsg 0) := by
  decide

/-- Claim C2 (amended): GenerateAddress fails with the parameter error
whenever bits is nonpositive (this check takes precedence); with positive
bits it fails with the latitude error whenever the latitude is out of
range, and with the longitude error whenever the latitude is in range and
the longitude is out of range; in every such case no AddressInfo is
returned. -/
theorem generateAddress_validation_amended (c : Collab) (lat lon : ℚ) (bits : Int)
    (s : SysState) :
    (bits ≤ 0 → (generateAddress c lat lon bits s).1 = .err "bits must be positive") ∧
    (¬ bits ≤ 0 → (lat < -90 ∨ 90 < lat) →
      (generateAddress c lat lon bits s).1 = .err (invalidLatMsg lat)) ∧
    (¬ bits ≤ 0 → ¬ (lat < -90 ∨ 90 < lat) → (lon < -180 ∨ 180 < lon) →
      (generateAddress c lat lon bits s).1 = .err (invalidLonMsg lon)) ∧
    ((bits ≤ 0 ∨ lat < -90 ∨ 90 < lat ∨ lon < -180 ∨ 180 < lon) →
      (generateAddress c lat lon bits s).1.isOk = false) := by
  refine ⟨?_, ?_, ?_, ?_⟩
  · intro hb
    unfold generateAddress
    rw [if_pos hb]
  · intro hb hlat
    unfold generateAddress
    rw [if_neg hb, if_pos hlat]
  · intro hb hlat hlon
    unfold generateAddress
    rw [if_neg hb, if_neg hlat, if_pos hlon]
  · intro hbad
    unfold generateAddress
    by_cases hb : bits ≤ 0
    · rw [if_pos hb]; rfl
    rw [if_neg hb]
    by_cases hlat : lat < -90 ∨ 90 < lat
    · rw [if_pos hlat]; rfl
    rw [if_neg hlat]
    have hlon : lon < -180 ∨ 180 < lon := by
      rcases hbad with h | h | h | h | h
      · exact absurd h hb
      · exact absurd (Or.inl h) hlat
      · exact absurd (Or.inr h) hlat
      · exact Or.inl h
      · exact Or.inr h
    rw [if_pos hlon]
    rfl

/-- Witness for the amended claim C2: a nonpositive bits value yields the
parameter error even with a valid-range latitude, an out-of-range
latitude with positive bits yields the latitude error, and an
out-of-range longitude with in-range latitude yields the longitude
error. -/
theorem generateAddress_validation_amended_witness :
    (generateAddress c0 10 0 (-3) emptyState).1 = .err "bits must be positive" ∧
    (generateAddress c0 95 0 7 emptyState).1 = .err (invalidLatMsg 95) ∧
    (generateAddress c0 5 200 7 emptyState).1 = .err (invalidLonMsg 200) ∧
    (generateAddress c0 5 200 7 emptyState).1.isOk = false := by
  refine ⟨(generateAddress_validation_amended c0 10 0 (-3) emptyState).1 (by decide),
    (generateAddress_validation_amended c0 95 0 7 emptyState).2.1 (by decide)
      (Or.inr (by decide)),
    (generateAddress_validation_amended c0 5 200 7 emptyState).2.2.1 (by decide) (by decide)
      (Or.inr (by decide)),
    (generateAddress_validation_amended c0 5 200 7 emptyState).2.2.2
      (Or.inr (Or.inr (Or.inr (Or.inr (by decide)))))⟩

/-- Claim C3: after a successful GenerateAddress, a second sequential
call with the same coordinates and any positive bits returns the
identical AddressInfo from the cache -- independently of the second
call's collaborators, so nothing is re-derived -- and leaves the nonce
registry untouched. -/
theorem generateAddress_cache_idempotent (c₁ c₂ : Collab) (lat lon : ℚ) (bits bits₂ : Int)
    (s : SysState) (ai : AddressInfo) (s₁ : SysState)
    (h : generateAddress c₁ lat lon bits s = (.ok ai, s₁)) (hb₂ : ¬ bits₂ ≤ 0) :
    (generateAddress c₂ lat lon bits₂ s₁).1 = .ok ai ∧
    (generateAddress c₂ lat lon bits₂ s₁).2.nonces = s₁.nonces := by
  obtain ⟨hb, hlat, hlon, ⟨rest, hc⟩, -⟩ := generateAddress_ok_char c₁ lat lon bits s ai s₁ h
  have hget : cacheGet s₁.cache (coordKey lat lon) =
      some (ai, (coordKey lat lon, ai) :: ((coordKey lat lon, ai) :: rest).filter
        (fun e2 => e2.1 != coordKey lat lon)) := by
    rw [hc]
    exact cacheGet_cons_self _ _ _
  have hrun : generateAddress c₂ lat lon bits₂ s₁ =
      (.ok ai, { s₁ with cache := (coordKey lat lon, ai) ::
        ((coordKey lat lon, ai) :: rest).filter (fun e2 => e2.1 != coordKey lat lon) }) := by
    unfold generateAddress
    rw [if_neg hb₂, if_neg hlat, if_neg hlon]
    simp only [hget]
  rw [hrun]
  exact ⟨rfl, rfl⟩

/-- Witness for claim C3: issuing at the origin and then calling again on
the resulting state returns the same outcome. -/
theorem generateAddress_cache_idempotent_witness :
    (generateAddress c0 0 0 256 (generateAddress c0 0 0 256 emptyState).2).1 =
      (generateAddress c0 0 0 256 emptyState).1 := by
  have hOk : (generateAddress c0 0 0 256 emptyState).1.isOk = true := by decide
  cases hh : (generateAddress c0 0 0 256 emptyState).1 with
  | ok ai =>
    have h : generateAddress c0 0 0 256 emptyState =
        (.ok ai, (generateAddress c0 0 0 256 emptyState).2) := by
      rw [← hh]
    have h2 := generateAddress_cache_idempotent c0 c0 0 0 256 256 emptyState ai
      (generateAddress c0 0 0 256 emptyState).2 h (by decide)
    exact h2.1
  | err e =>
    rw [hh] at hOk
    simp [GoOutcome.isOk] at hOk
  | crash =>
    rw [hh] at hOk
    simp [GoOutcome.isOk] at hOk

/-- Claim C6: when the randomness source fails during the nonce
sub-operation of a fresh issuance, GenerateAddress does not surface an
error to its caller -- the nonce goroutine never fills its error slot, so
the nil nonce is dereferenced during assembly and the call crashes. -/
theorem nonce_randfail_crash :
    (generateAddress cFail 0 0 256 emptyState).1 = .crash := by
  decide

/-- When no goroutine crashed and none reported an error, every outcome
is a successful return and the batch result list is their ordered
extraction. -/
theorem allOk_of_no_err (os : List (GoOutcome AddressInfo))
    (hcr : os.any GoOutcome.isCrash = false) (hfe : firstErrMsg os = none) :
    os = (os.filterMap GoOutcome.toOk).map GoOutcome.ok := by
  induction os with
  | nil => rfl
  | cons o rest ih =>
    cases o with
    | ok a =>
      have hcr2 : rest.any GoOutcome.isCrash = false := by
        simpa [GoOutcome.isCrash] using hcr
      have hfe2 : firstErrMsg rest = none := by
        simpa [firstErrMsg] using hfe
      simpa [GoOutcome.toOk] using ih hcr2 hfe2
    | err e => simp [firstErrMsg] at hfe
    | crash => simp [GoOutcome.isCrash] at hcr

/-- A successful batch join means every goroutine outcome was a success,
in order. -/
theorem collectBatch_ok (os : List (GoOutcome AddressInfo)) (l : List AddressInfo)
    (h : collectBatch os = .ok l) : os = l.map GoOutcome.ok := by
  unfold collectBatch at h
  cases hcr : os.any GoOutcome.isCrash with
  | true => rw [hcr] at h; simp at h
  | false =>
    rw [hcr] at h
    rw [if_neg (by simp)] at h
    cases hfe : firstErrMsg os with
    | some e => rw [hfe] at h; simp at h
    | none =>
      rw [hfe] at h
      have h2 : os.filterMap GoOutcome.toOk = l := by injection h
      rw [← h2]
      exact allOk_of_no_err os hcr hfe

/-- The linearized batch run produces one outcome per coordinate, in
input order, and the j-th outcome is a GenerateAddress result for the
j-th coordinate (from some intermediate state of the run). -/
theorem runBatch_spec (cs : Nat → Collab) (bits : Int) (coords : List (ℚ × ℚ)) :
    ∀ (i : Nat) (s : SysState),
      ((runBatch cs bits i coords s).1.length = coords.length) ∧
      ∀ j (hj : j < coords.length) (hj2 : j < (runBatch cs bits i coords s).1.length),
        ∃ s₁, (runBatch cs bits i coords s).1.get ⟨j, hj2⟩ =
          (generateAddress (cs (i + j)) (coords.get ⟨j, hj⟩).1 (coords.get ⟨j, hj⟩).2 bits s₁).1 := by
  induction coords with
  | nil =>
    intro i s
    exact ⟨rfl, fun j hj => absurd hj (by simp)⟩
  | cons p rest ih =>
    intro i s
    obtain ⟨lat, lon⟩ := p
    constructor
    · show (_ :: (runBatch cs bits (i + 1) rest _).1).length = _
      simp [(ih (i + 1) (generateAddress (cs i) lat lon bits s).2).1]
    · intro j hj hj2
      cases j with
      | zero =>
        exact ⟨s, rfl⟩
      | succ j2 =>
        have hj3 : j2 < rest.length := by simpa using hj
        obtain ⟨hlen, hget⟩ := ih (i + 1) (generateAddress (cs i) lat lon bits s).2
        have hj4 : j2 < (runBatch cs bits (i + 1) rest
            (generateAddress (cs i) lat lon bits s).2).1.length := by
          rw [hlen]; exact hj3
        obtain ⟨s₁, hs₁⟩ := hget j2 hj3 hj4
        refine ⟨s₁, ?_⟩
        show (runBatch cs bits (i + 1) rest _).1.get ⟨j2, hj4⟩ = _
        rw [hs₁]
        have : i + 1 + j2 = i + (j2 + 1) := by omega
        rw [this]
        rfl

/-- Claim C4: if GenerateAddressesBatch succeeds, it returns exactly one
AddressInfo per input coordinate with the j-th element a GenerateAddress
success for the j-th coordinate; if any member outcome is not a success
the batch never returns an address list, and when some member reported
an error (and none crashed) the batch returns the first such error. -/
theorem generateAddressesBatch_spec (cs : Nat → Collab) (coords : List (ℚ × ℚ)) (bits : Int)
    (s : SysState) :
    (∀ l, (generateAddressesBatch cs coords bits s).1 = .ok l →
      l.length = coords.length ∧
      ∀ j (hj : j < coords.length) (hl : j < l.length),
        ∃ c s₁, (generateAddress c (coords.get ⟨j, hj⟩).1 (coords.get ⟨j, hj⟩).2 bits s₁).1 =
          .ok (l.get ⟨j, hl⟩)) ∧
    (∀ o, o ∈ (runBatch cs bits 0 coords s).1 → o.isOk = false →
      ∀ l, (generateAddressesBatch cs coords bits s).1 ≠ .ok l) ∧
    (∀ e, (runBatch cs bits 0 coords s).1.any GoOutcome.isCrash = false →
      firstErrMsg (runBatch cs bits 0 coords s).1 = some e →
      (generateAddressesBatch cs coords bits s).1 = .err e) := by
  refine ⟨?_, ?_, ?_⟩
  · intro l h
    have hco : collectBatch (runBatch cs bits 0 coords s).1 = .ok l := h
    have hos := collectBatch_ok _ _ hco
    obtain ⟨hlen, hget⟩ := runBatch_spec cs bits coords 0 s
    have hll : l.length = coords.length := by
      rw [← hlen, hos, List.length_map]
    refine ⟨hll, ?_⟩
    intro j hj hl
    have hj2 : j < (runBatch cs bits 0 coords s).1.length := by
      rw [hlen]; exact hj
    obtain ⟨s₁, hs₁⟩ := hget j hj hj2
    refine ⟨cs (0 + j), s₁, ?_⟩
    rw [← hs₁]
    rw [List.get_of_eq hos ⟨j, hj2⟩]
    simp
  · intro o ho hno l h
    have hos := collectBatch_ok _ _ h
    rw [hos] at ho
    obtain ⟨a, -, ha⟩ := List.mem_map.mp ho
    rw [← ha] at hno
    simp [GoOutcome.isOk] at hno
  · intro e hcr hfe
    show collectBatch (runBatch cs bits 0 coords s).1 = .err e
    unfold collectBatch
    rw [hcr]
    rw [if_neg (by simp), hfe]

/-- Witness for claim C4: a batch containing an invalid latitude member
never returns an address list. -/
theorem generateAddressesBatch_spec_witness :
    (generateAddressesBatch (fun _ => c0) [((91 : ℚ), (0 : ℚ))] 256 emptyState).1 ≠
      .ok [] := by
  have hmem : GoOutcome.err (invalidLatMsg 91) ∈
      (runBatch (fun _ => c0) 256 0 [((91 : ℚ), (0 : ℚ))] emptyState).1 := by
    decide
  exact (generateAddressesBatch_spec (fun _ => c0) [((91 : ℚ), (0 : ℚ))] 256 emptyState).2.1
    _ hmem rfl []

end PadawanZero
